import Mathlib

/-!
Verification of the chunked movie-transfer and synchronized-playback core
(`frontend/src/components/moviestreaming.ts`, class `MovieStreamingService`).

Modelling conventions:
* A file and every binary chunk is a `List Nat` of byte values (each `< 256`);
  JS strings appear as lists of UTF-16 code units (`List Nat`), so the
  `String.fromCharCode` / `charCodeAt` loops in `arrayBufferToBase64` /
  `base64ToArrayBuffer` are the identity at the byte level.
* JS numbers that carry times, ratios and percentages are modelled as `ℚ`.
* The `btoa` / `atob` browser builtins are modelled as standard base64
  over code units, which is their specified behaviour on binary strings.
* Console logging and the status/progress text callbacks carry no protocol
  state; observable callbacks and sink appends are modelled as an event list.
-/

namespace MovieStreaming

/-- Configuration constant `CHUNK_SIZE = 16 * 1024` (16 KiB). -/
def CHUNK_SIZE : Nat := 16 * 1024

/-- Configuration constant `BUFFER_THRESHOLD = 0.10` (start playback at 10%). -/
def BUFFER_THRESHOLD : ℚ := 1 / 10

/-- Configuration constant `SEEK_TOLERANCE = 1.0` seconds. -/
def SEEK_TOLERANCE : ℚ := 1

/-- Base64 alphabet: sextet value to UTF-16 code unit
(`A`-`Z`, `a`-`z`, `0`-`9`, `+`, `/`). -/
def sextetToCode (n : Nat) : Nat :=
  if n < 26 then 65 + n
  else if n < 52 then 97 + (n - 26)
  else if n < 62 then 48 + (n - 52)
  else if n = 62 then 43
  else 47

/-- Base64 alphabet, inverse direction: code unit to sextet value. -/
def codeToSextet (c : Nat) : Nat :=
  if 65 ≤ c ∧ c ≤ 90 then c - 65
  else if 97 ≤ c ∧ c ≤ 122 then c - 97 + 26
  else if 48 ≤ c ∧ c ≤ 57 then c - 48 + 52
  else if c = 43 then 62
  else if c = 47 then 63
  else 0

/-- Pack a byte list into base64 sextet values, three bytes to four sextets,
with the standard short handling of a final group of one or two bytes. -/
def encodeSextets : List Nat → List Nat
  | [] => []
  | [a] => [a / 4, a % 4 * 16]
  | [a, b] => [a / 4, a % 4 * 16 + b / 16, b % 16 * 4]
  | a :: b :: c :: rest =>
      a / 4 :: (a % 4 * 16 + b / 16) :: (b % 16 * 4 + c / 64) :: c % 64 ::
        encodeSextets rest

/-- The `=` padding (code unit 61) appended by `btoa`, determined by the
byte length modulo 3. -/
def padCodes (len : Nat) : List Nat :=
  if len % 3 = 1 then [61, 61] else if len % 3 = 2 then [61] else []

/-- Model of the browser `btoa` builtin on a binary string: standard base64
over code units. -/
def btoa (bytes : List Nat) : List Nat :=
  (encodeSextets bytes).map sextetToCode ++ padCodes bytes.length

/-- Unpack base64 sextet values back into bytes, four sextets to three bytes,
with the standard handling of a final group of two or three sextets. -/
def decodeSextets : List Nat → List Nat
  | s1 :: s2 :: s3 :: s4 :: rest =>
      (s1 * 4 + s2 / 16) :: (s2 % 16 * 16 + s3 / 4) :: (s3 % 4 * 64 + s4) ::
        decodeSextets rest
  | [s1, s2] => [s1 * 4 + s2 / 16]
  | [s1, s2, s3] => [s1 * 4 + s2 / 16, s2 % 16 * 16 + s3 / 4]
  | _ => []

/-- Model of the browser `atob` builtin: drop `=` padding, map code units to
sextets, unpack to bytes. -/
def atob (s : List Nat) : List Nat :=
  decodeSextets ((s.filter fun c => decide (c ≠ 61)).map codeToSextet)

/-- Embeds `arrayBufferToBase64` (moviestreaming.ts:710-717): the
`String.fromCharCode` loop turns the byte array into a binary string whose
code units are exactly the byte values, then `btoa` encodes it. -/
def arrayBufferToBase64 (buffer : List Nat) : List Nat :=
  btoa buffer

/-- Embeds `base64ToArrayBuffer` (moviestreaming.ts:722-729): `atob` decodes
the base64 text, and the `charCodeAt` loop reads the code units back as
bytes. -/
def base64ToArrayBuffer (base64 : List Nat) : List Nat :=
  atob base64

/-- Embeds `Math.ceil(file.size / CHUNK_SIZE)` (moviestreaming.ts:234): the
total chunk count, as natural-number ceiling division. -/
def totalChunksOf (size : Nat) : Nat :=
  (size + CHUNK_SIZE - 1) / CHUNK_SIZE

/-- Embeds `splitFileIntoChunks` (moviestreaming.ts:232-257): for each
`i < totalChunks`, the slice from `start = i * CHUNK_SIZE` to
`end = min(start + CHUNK_SIZE, size)`; `take` truncates at the file end
exactly as the `min` does. -/
def splitFileIntoChunks (file : List Nat) : List (List Nat) :=
  (List.range (totalChunksOf file.length)).map
    fun i => (file.drop (i * CHUNK_SIZE)).take CHUNK_SIZE

/-- Envelope type tag (`ChunkMessage.type`). -/
inductive MsgType
  | metadata
  | chunk
  | sync
  | control
deriving DecidableEq

/-- `syncData` payload of a sync envelope: master playback time (s), paused
flag, and emission wall-clock timestamp (ms). -/
structure SyncData where
  currentTime : ℚ
  paused : Bool
  timestamp : ℚ
deriving DecidableEq

/-- Wire envelope (`ChunkMessage` interface): a tag plus the optional fields
used by the handlers the claims concern. `data` is the base64 text as a list
of UTF-16 code units. -/
structure ChunkMessage where
  type : MsgType
  chunkIndex : Option Nat := none
  totalChunks : Option Nat := none
  data : Option (List Nat) := none
  syncData : Option SyncData := none
deriving DecidableEq

/-- Observable effects of the service: callback invocations and decode-sink
appends. Console logging is not modelled. -/
inductive Ev
  | progressUpdate (percent : ℚ)
  | playbackReady
  | appendToSink (bytes : List Nat)
  | chunkSent (index : Nat) (data : List Nat)
  | transferComplete
  | channelLostError
  | channelNotReadyError
  | noChannelError
  | busyWarning
  | metadataSent (total : Nat)
deriving DecidableEq

/-- JS `Map.set`: overwrite the entry if the key is present (keeping its
position), otherwise append a new entry. -/
def mapSet (m : List (Nat × List Nat)) (k : Nat) (v : List Nat) :
    List (Nat × List Nat) :=
  match m with
  | [] => [(k, v)]
  | (k', v') :: rest =>
      if k' = k then (k, v) :: rest else (k', v') :: mapSet rest k v

/-- JS `Map.get` (`none` models `undefined`; `Map.has` is `isSome`). -/
def mapGet (m : List (Nat × List Nat)) (k : Nat) : Option (List Nat) :=
  match m with
  | [] => none
  | (k', v) :: rest => if k' = k then some v else mapGet rest k

/-- Receiver-side state of `MovieStreamingService`: the reassembly fields
plus the media-handling flags that gate the decode feeder.
`hasSourceBuffer` models `this.sourceBuffer !== null`. -/
structure RecvState where
  expectedTotalChunks : Nat
  receivingProgress : Nat
  receivedChunks : List (Nat × List Nat)
  playbackStarted : Bool
  bufferedChunkIndex : Nat
  isBuffering : Bool
  hasSourceBuffer : Bool
deriving DecidableEq

/-- Embeds `checkPlaybackReadiness` (moviestreaming.ts:533-550): early
return when playback already started or no metadata yet
(`!this.expectedTotalChunks`); otherwise compare the buffer ratio with
`BUFFER_THRESHOLD` and, on crossing, latch `playbackStarted` and notify
`onPlaybackReady`. The follower's `startSyncPlayback` call only logs, and
the master's waits for the transfer, so neither changes receiver state. -/
def checkPlaybackReadiness (st : RecvState) : RecvState × List Ev :=
  if st.playbackStarted ∨ st.expectedTotalChunks = 0 then (st, [])
  else if BUFFER_THRESHOLD ≤
      (st.receivingProgress : ℚ) / (st.expectedTotalChunks : ℚ) then
    ({ st with playbackStarted := true }, [Ev.playbackReady])
  else (st, [])

/-- The `while (chunksToAppend.length < 5 && receivedChunks.has(currentIndex))`
collection loop of `bufferChunks`, with the remaining capacity as the
recursion measure. -/
def collectChunks (m : List (Nat × List Nat)) (idx : Nat) :
    Nat → List (List Nat)
  | 0 => []
  | remaining + 1 =>
      match mapGet m idx with
      | some v => v :: collectChunks m (idx + 1) remaining
      | none => []

/-- Embeds `bufferChunks` (moviestreaming.ts:555-600): skip unless a source
buffer exists and no append is in flight; collect up to 5 consecutive
present chunks starting at `bufferedChunkIndex`; if any, append their
concatenation to the sink, set `isBuffering`, and advance the cursor to the
end of the run. The `appendBuffer` success path is modelled (the catch
handles a sink-side failure of the external decoder). -/
def bufferChunks (st : RecvState) : RecvState × List Ev :=
  if st.hasSourceBuffer = false ∨ st.isBuffering then (st, [])
  else
    let chunksToAppend := collectChunks st.receivedChunks
      st.bufferedChunkIndex 5
    if chunksToAppend.length = 0 then (st, [])
    else
      ({ st with
          isBuffering := true,
          bufferedChunkIndex :=
            st.bufferedChunkIndex + chunksToAppend.length },
       [Ev.appendToSink chunksToAppend.flatten])

/-- Embeds `handleChunk` (moviestreaming.ts:407-442): drop envelopes with
`chunkIndex === undefined` or falsy `data` (missing or empty string); else
decode the payload, store it under its index, increment
`receivingProgress`, report progress, then run readiness check and the
decode feeder. `atob` is modelled total, as the claims concern well-formed
payloads (the catch handles a decode throw). -/
def handleChunk (st : RecvState) (msg : ChunkMessage) : RecvState × List Ev :=
  match msg.chunkIndex, msg.data with
  | some i, some d =>
    if d = [] then (st, [])
    else
      let chunkData := base64ToArrayBuffer d
      let st1 := { st with
        receivedChunks := mapSet st.receivedChunks i chunkData,
        receivingProgress := st.receivingProgress + 1 }
      let percent : ℚ :=
        (st1.receivingProgress : ℚ) / (st1.expectedTotalChunks : ℚ) * 100
      let p1 := checkPlaybackReadiness st1
      let p2 := bufferChunks p1.1
      (p2.1, Ev.progressUpdate percent :: (p1.2 ++ p2.2))
  | _, _ => (st, [])

/-- The intermediate receiver state inside `handleChunk` right after the
chunk is stored and the received count incremented, before the readiness
check and the decode feeder run. -/
def stored (st : RecvState) (i : Nat) (d : List Nat) : RecvState :=
  { st with
    receivedChunks := mapSet st.receivedChunks i (base64ToArrayBuffer d),
    receivingProgress := st.receivingProgress + 1 }

/-- A sequence of chunk envelopes delivered to the receiver, in order. -/
def processChunks (st : RecvState) (msgs : List ChunkMessage) :
    RecvState × List Ev :=
  match msgs with
  | [] => (st, [])
  | m :: rest =>
    let p1 := handleChunk st m
    let p2 := processChunks p1.1 rest
    (p2.1, p1.2 ++ p2.2)

/-- Number of `onPlaybackReady` notifications in an event list. -/
def countReady (evs : List Ev) : Nat :=
  evs.count Ev.playbackReady

/-- Local playback surface (`videoElement.currentTime` / `paused`). -/
structure VideoState where
  currentTime : ℚ
  paused : Bool
deriving DecidableEq

/-- Sender-side state of `MovieStreamingService`. -/
structure SendState where
  currentFile : Option (List Nat)
  fileChunks : List (List Nat)
  sendingProgress : Nat
  totalChunks : Nat
  isSending : Bool
deriving DecidableEq

/-- The whole per-session service state the sync handler can see. -/
structure ServiceState where
  isMaster : Bool
  video : Option VideoState
  sendSt : SendState
  recv : RecvState
deriving DecidableEq

/-- Embeds `handleSync` (moviestreaming.ts:667-697): masters and envelopes
without `syncData` or without a video element are ignored; a follower
computes `networkDelay = (now - timestamp) / 1000` and
`adjustedTime = currentTime + networkDelay`, force-seeks when the absolute
drift exceeds `SEEK_TOLERANCE`, and reconciles the pause flag in both
directions (`play()` is modelled as succeeding). -/
def handleSync (st : ServiceState) (msg : ChunkMessage) (now : ℚ) :
    ServiceState :=
  if st.isMaster then st
  else
    match msg.syncData, st.video with
    | some sd, some v =>
      let networkDelay := (now - sd.timestamp) / 1000
      let adjustedTime := sd.currentTime + networkDelay
      let timeDiff := |v.currentTime - adjustedTime|
      let v1 := if SEEK_TOLERANCE < timeDiff then
          { v with currentTime := adjustedTime } else v
      let v2 := if sd.paused ∧ v1.paused = false then
          { v1 with paused := true }
        else if sd.paused = false ∧ v1.paused then
          { v1 with paused := false }
        else v1
      { st with video := some v2 }
    | _, _ => st

/-- State of the data channel as seen by the sender's guards:
`dataChannel === null`, `readyState !== 'open'`, or open. `openAt i` in the
pacing loop gives the channel's state when chunk `i` is attempted (the loop
re-reads `readyState` at each scheduled step). -/
inductive ChannelState
  | noChannel
  | notOpen
  | isOpen
deriving DecidableEq

/-- One-chunk payload the sender emits for index `i`. -/
def chunkPayload (st : SendState) (i : Nat) : List Nat :=
  arrayBufferToBase64 (st.fileChunks.getD i [])

/-- Embeds the `sendNextChunk` pacing loop (moviestreaming.ts:262-321), the
`setTimeout` chain unrolled with explicit fuel: stop silently if sending
was cancelled; on `sendingProgress >= totalChunks` mark the transfer
complete; if the channel is not open, report the connection-lost error and
stop; otherwise emit the current chunk, advance progress, report fractional
progress, and continue. The send succeeds whenever the channel is open. -/
def sendLoop (openAt : Nat → Bool) (st : SendState) :
    Nat → SendState × List Ev
  | 0 => (st, [])
  | fuel + 1 =>
    if st.isSending = false then (st, [])
    else if st.totalChunks ≤ st.sendingProgress then
      ({ st with isSending := false }, [Ev.transferComplete])
    else if openAt st.sendingProgress = false then
      ({ st with isSending := false }, [Ev.channelLostError])
    else
      let st1 := { st with sendingProgress := st.sendingProgress + 1 }
      let rest := sendLoop openAt st1 fuel
      (rest.1,
        Ev.chunkSent st.sendingProgress (chunkPayload st st.sendingProgress)
          :: Ev.progressUpdate
            ((st1.sendingProgress : ℚ) / (st.totalChunks : ℚ) * 100)
          :: rest.2)

/-- The two observable effects of one successful pacing step for chunk `i`:
the chunk emission and the fractional-progress callback. -/
def chunkStepEvents (st : SendState) (i : Nat) : List Ev :=
  [Ev.chunkSent i (chunkPayload st i),
   Ev.progressUpdate (((i + 1 : Nat) : ℚ) / (st.totalChunks : ℚ) * 100)]

/-- The pacing loop run to completion: `totalChunks + 1 - sendingProgress`
scheduled steps always suffice, since every continuing step advances
`sendingProgress` by one. -/
def sendNextChunk (openAt : Nat → Bool) (st : SendState) :
    SendState × List Ev :=
  sendLoop openAt st (st.totalChunks + 1 - st.sendingProgress)

/-- Embeds the synchronous prefix of `shareMovie` (moviestreaming.ts:158-227)
up to the point where the first pacing step is scheduled: reject when the
channel is missing or not open, reject with the busy warning when a
transfer is already in progress; otherwise record the file, mark sending
active, chunk the file, and emit the metadata envelope. -/
def shareMovie (cs : ChannelState) (st : SendState) (file : List Nat) :
    SendState × List Ev :=
  match cs with
  | ChannelState.noChannel => (st, [Ev.noChannelError])
  | ChannelState.notOpen => (st, [Ev.channelNotReadyError])
  | ChannelState.isOpen =>
    if st.isSending then (st, [Ev.busyWarning])
    else
      ({ currentFile := some file,
         fileChunks := splitFileIntoChunks file,
         sendingProgress := 0,
         totalChunks := totalChunksOf file.length,
         isSending := true },
       [Ev.metadataSent (totalChunksOf file.length)])

/-- A receiver mid-session: metadata announced 10 chunks, one chunk stored. -/
def recvAfterOne : RecvState :=
  { expectedTotalChunks := 10, receivingProgress := 0, receivedChunks := [],
    playbackStarted := false, bufferedChunkIndex := 0, isBuffering := false,
    hasSourceBuffer := false }

/-- A receiver before any metadata: `expectedTotalChunks = 0`, nothing
stored, no source buffer yet. -/
def recvNoMetadata : RecvState :=
  { expectedTotalChunks := 0, receivingProgress := 0, receivedChunks := [],
    playbackStarted := false, bufferedChunkIndex := 0, isBuffering := false,
    hasSourceBuffer := false }

/-- A receiver holding exactly chunks {0, 1, 3}, cursor at 0, sink idle. -/
def recvGapState : RecvState :=
  { expectedTotalChunks := 10, receivingProgress := 3,
    receivedChunks := [(0, [10]), (1, [11]), (3, [13])],
    playbackStarted := false, bufferedChunkIndex := 0, isBuffering := false,
    hasSourceBuffer := true }

/-- A concrete chunk envelope with index 0 and a one-byte payload. -/
def chunkMsg0 : ChunkMessage :=
  { type := MsgType.chunk, chunkIndex := some 0, totalChunks := some 10,
    data := some (btoa [7]) }

/-- An idle sender. -/
def idleSend : SendState :=
  { currentFile := none, fileChunks := [], sendingProgress := 0,
    totalChunks := 0, isSending := false }

/-- A sender mid-transfer (`isSending = true`). -/
def busySend : SendState :=
  { currentFile := some [1, 2], fileChunks := [[1], [2]],
    sendingProgress := 0, totalChunks := 2, isSending := true }

/-- A follower session whose video is at 98.0 s, playing. -/
def followerAt98 : ServiceState :=
  { isMaster := false, video := some { currentTime := 98, paused := false },
    sendSt := idleSend, recv := recvAfterOne }

/-- A follower session whose video is at 100.0 s, playing. -/
def followerAt100 : ServiceState :=
  { isMaster := false, video := some { currentTime := 100, paused := false },
    sendSt := idleSend, recv := recvAfterOne }

/-- A master session. -/
def masterState : ServiceState :=
  { isMaster := true, video := some { currentTime := 50, paused := false },
    sendSt := busySend, recv := recvAfterOne }

/-- A sync envelope: master at 100.0 s, playing, stamped at wall time 0. -/
def syncMsg100 : ChunkMessage :=
  { type := MsgType.sync, syncData := some
      { currentTime := 100, paused := false, timestamp := 0 } }

/-- Every sextet produced by `encodeSextets` from genuine bytes is `< 64`. -/
theorem encodeSextets_lt : ∀ l : List Nat, (∀ b ∈ l, b < 256) →
    ∀ s ∈ encodeSextets l, s < 64
  | [], _ => by intro s hs; simp [encodeSextets] at hs
  | [a], h => by
    intro s hs
    have ha := h a (by simp)
    simp [encodeSextets] at hs
    rcases hs with hs | hs <;> omega
  | [a, b], h => by
    intro s hs
    have ha := h a (by simp)
    have hb := h b (by simp)
    simp [encodeSextets] at hs
    rcases hs with hs | hs | hs <;> omega
  | a :: b :: c :: rest, h => by
    intro s hs
    have ha := h a (by simp)
    have hb := h b (by simp)
    have hc := h c (by simp)
    simp only [encodeSextets, List.mem_cons] at hs
    rcases hs with hs | hs | hs | hs | hs
    · omega
    · omega
    · omega
    · omega
    · exact encodeSextets_lt rest (fun x hx => h x (by simp [hx])) s hs

/-- The alphabet maps are mutually inverse on sextet values. -/
theorem codeToSextet_sextetToCode : ∀ n, n < 64 →
    codeToSextet (sextetToCode n) = n := by
  decide

/-- No sextet value is encoded as the padding code unit 61 (`=`). -/
theorem sextetToCode_ne_61 : ∀ n, n < 64 → sextetToCode n ≠ 61 := by
  decide

/-- Filtering out padding leaves an alphabet-encoded sextet list unchanged. -/
theorem filter_map_sextetToCode (l : List Nat) (h : ∀ s ∈ l, s < 64) :
    ((l.map sextetToCode).filter fun c => decide (c ≠ 61)) =
      l.map sextetToCode := by
  induction l with
  | nil => simp
  | cons x xs ih =>
    have hx := sextetToCode_ne_61 x (h x (by simp))
    simp only [List.map_cons, List.filter_cons]
    rw [if_pos (by simpa using hx)]
    rw [ih fun s hs => h s (by simp [hs])]

/-- The padding codes are all filtered out. -/
theorem filter_padCodes (n : Nat) :
    ((padCodes n).filter fun c => decide (c ≠ 61)) = [] := by
  unfold padCodes
  split <;> [skip; split] <;> simp

/-- Decoding the alphabet after encoding recovers the sextets. -/
theorem map_codeToSextet_map (l : List Nat) (h : ∀ s ∈ l, s < 64) :
    (l.map sextetToCode).map codeToSextet = l := by
  induction l with
  | nil => simp
  | cons x xs ih =>
    simp only [List.map_cons, List.cons.injEq]
    exact ⟨codeToSextet_sextetToCode x (h x (by simp)),
      ih fun s hs => h s (by simp [hs])⟩

/-- Unpacking after packing recovers the original bytes. -/
theorem decodeSextets_encodeSextets : ∀ l : List Nat, (∀ b ∈ l, b < 256) →
    decodeSextets (encodeSextets l) = l
  | [], _ => by simp [encodeSextets, decodeSextets]
  | [a], h => by
    have ha := h a (by simp)
    simp only [encodeSextets, decodeSextets, List.cons.injEq, and_true]
    omega
  | [a, b], h => by
    have ha := h a (by simp)
    have hb := h b (by simp)
    simp only [encodeSextets, decodeSextets, List.cons.injEq, and_true]
    constructor <;> omega
  | a :: b :: c :: rest, h => by
    have ha := h a (by simp)
    have hb := h b (by simp)
    have hc := h c (by simp)
    simp only [encodeSextets, decodeSextets, List.cons.injEq]
    refine ⟨by omega, by omega, by omega, ?_⟩
    exact decodeSextets_encodeSextets rest fun x hx => h x (by simp [hx])

/-- Base64 round trip: `atob (btoa bytes) = bytes` for genuine byte values. -/
theorem atob_btoa (l : List Nat) (h : ∀ b ∈ l, b < 256) :
    atob (btoa l) = l := by
  unfold atob btoa
  rw [List.filter_append, filter_padCodes, List.append_nil,
    filter_map_sextetToCode _ (encodeSextets_lt l h),
    map_codeToSextet_map _ (encodeSextets_lt l h),
    decodeSextets_encodeSextets l h]

/-- `totalChunksOf` steps down by one chunk: for a non-empty file the count
is one more than the count for the file minus one chunk size. -/
theorem totalChunksOf_succ (L : Nat) (h : 0 < L) :
    totalChunksOf L = totalChunksOf (L - CHUNK_SIZE) + 1 := by
  simp only [totalChunksOf, CHUNK_SIZE]
  omega

/-- Concatenating the chunk slices in index order reproduces the file. -/
theorem join_chunks_aux : ∀ (n : Nat) (f : List Nat), f.length ≤ n →
    ((List.range (totalChunksOf f.length)).map
      fun i => (f.drop (i * CHUNK_SIZE)).take CHUNK_SIZE).flatten = f := by
  intro n
  induction n with
  | zero =>
    intro f hf
    have : f = [] := List.length_eq_zero.mp (Nat.le_zero.mp hf)
    subst this
    simp [totalChunksOf, CHUNK_SIZE]
  | succ n ih =>
    intro f hf
    by_cases hlen : f.length = 0
    · have : f = [] := List.length_eq_zero.mp hlen
      subst this
      simp [totalChunksOf, CHUNK_SIZE]
    · rw [totalChunksOf_succ f.length (Nat.pos_of_ne_zero hlen),
        List.range_succ_eq_map, List.map_cons, List.map_map,
        List.flatten_cons]
      have htail :
          ((List.range (totalChunksOf (f.length - CHUNK_SIZE))).map
            ((fun i => (f.drop (i * CHUNK_SIZE)).take CHUNK_SIZE) ∘
              Nat.succ)) =
          (List.range (totalChunksOf (f.drop CHUNK_SIZE).length)).map
            fun i => ((f.drop CHUNK_SIZE).drop (i * CHUNK_SIZE)).take
              CHUNK_SIZE := by
        rw [List.length_drop]
        apply List.map_congr_left
        intro i _
        simp only [Function.comp_apply]
        have hstep : Nat.succ i * CHUNK_SIZE = i * CHUNK_SIZE + CHUNK_SIZE :=
          Nat.succ_mul i CHUNK_SIZE
        rw [List.drop_drop, hstep, Nat.add_comm]
      rw [htail, ih (f.drop CHUNK_SIZE)
        (by rw [List.length_drop]; simp only [CHUNK_SIZE]; omega)]
      simp only [Nat.zero_mul, List.drop_zero]
      exact List.take_append_drop CHUNK_SIZE f

/-- C1: For every file of size S split with chunk size C = 16 KiB,
`splitFileIntoChunks` produces `totalChunks = ceil(S/C)` chunks
(characterised as the least k with S ≤ k·C), and decoding each chunk's wire
form (`base64ToArrayBuffer` after `arrayBufferToBase64`) and concatenating
chunks 0..totalChunks-1 in ascending index order reproduces the original
file bytes exactly. -/
theorem c1_split_roundtrip (file : List Nat) (h : ∀ b ∈ file, b < 256) :
    (splitFileIntoChunks file).length = totalChunksOf file.length
    ∧ file.length ≤ totalChunksOf file.length * CHUNK_SIZE
    ∧ (∀ k, file.length ≤ k * CHUNK_SIZE → totalChunksOf file.length ≤ k)
    ∧ ((splitFileIntoChunks file).map
        fun c => base64ToArrayBuffer (arrayBufferToBase64 c)).flatten =
          file := by
  refine ⟨by simp [splitFileIntoChunks], ?_, ?_, ?_⟩
  · simp only [totalChunksOf, CHUNK_SIZE]; omega
  · intro k hk; simp only [totalChunksOf, CHUNK_SIZE] at *; omega
  · have hfun : ∀ c ∈ splitFileIntoChunks file,
        base64ToArrayBuffer (arrayBufferToBase64 c) = id c := by
      intro c hc
      have hcb : ∀ b ∈ c, b < 256 := by
        intro b hb
        simp only [splitFileIntoChunks, List.mem_map, List.mem_range] at hc
        obtain ⟨i, _, rfl⟩ := hc
        exact h b (List.mem_of_mem_drop (List.mem_of_mem_take hb))
      simp only [base64ToArrayBuffer, arrayBufferToBase64, id]
      exact atob_btoa c hcb
    have hmap : (splitFileIntoChunks file).map
        (fun c => base64ToArrayBuffer (arrayBufferToBase64 c)) =
        (splitFileIntoChunks file).map id := List.map_congr_left hfun
    rw [hmap, List.map_id]
    exact join_chunks_aux file.length file le_rfl

/-- C1 witness: the round-trip property evaluated at a concrete 4-byte
file. -/
theorem c1_split_roundtrip_witness :
    (∀ b ∈ ([0, 1, 255, 100] : List Nat), b < 256)
    ∧ (splitFileIntoChunks [0, 1, 255, 100]).length =
        totalChunksOf (List.length [0, 1, 255, 100])
    ∧ List.length [0, 1, 255, 100] ≤
        totalChunksOf (List.length [0, 1, 255, 100]) * CHUNK_SIZE
    ∧ totalChunksOf (List.length [0, 1, 255, 100]) ≤ 1
    ∧ ((splitFileIntoChunks [0, 1, 255, 100]).map
        fun c => base64ToArrayBuffer (arrayBufferToBase64 c)).flatten =
          [0, 1, 255, 100] :=
  ⟨by decide,
    (c1_split_roundtrip [0, 1, 255, 100] (by decide)).1,
    (c1_split_roundtrip [0, 1, 255, 100] (by decide)).2.1,
    (c1_split_roundtrip [0, 1, 255, 100] (by decide)).2.2.1 1 (by decide),
    (c1_split_roundtrip [0, 1, 255, 100] (by decide)).2.2.2⟩

/-- Setting the same key to the same value twice is the same as once. -/
theorem mapSet_idem (m : List (Nat × List Nat)) (k : Nat) (v : List Nat) :
    mapSet (mapSet m k v) k v = mapSet m k v := by
  induction m with
  | nil => simp [mapSet]
  | cons hd tl ih =>
    obtain ⟨k', v'⟩ := hd
    by_cases hk : k' = k
    · simp [mapSet, hk]
    · simp [mapSet, hk, ih]

/-- The collection loop stepped on an absent cursor index yields nothing. -/
theorem collectChunks_none (m : List (Nat × List Nat)) (idx n : Nat)
    (h : mapGet m idx = none) : collectChunks m idx (n + 1) = [] := by
  unfold collectChunks
  rw [h]

/-- The collection loop stepped on a present cursor index takes that chunk
and continues at the next index. -/
theorem collectChunks_some (m : List (Nat × List Nat)) (idx n : Nat)
    (v : List Nat) (h : mapGet m idx = some v) :
    collectChunks m idx (n + 1) = v :: collectChunks m (idx + 1) n := by
  simp [collectChunks, h]

/-- `checkPlaybackReadiness` only ever touches `playbackStarted`. -/
theorem checkPR_frame (st : RecvState) :
    (checkPlaybackReadiness st).1.expectedTotalChunks =
        st.expectedTotalChunks
    ∧ (checkPlaybackReadiness st).1.receivingProgress =
        st.receivingProgress
    ∧ (checkPlaybackReadiness st).1.receivedChunks = st.receivedChunks
    ∧ (checkPlaybackReadiness st).1.bufferedChunkIndex =
        st.bufferedChunkIndex
    ∧ (checkPlaybackReadiness st).1.isBuffering = st.isBuffering
    ∧ (checkPlaybackReadiness st).1.hasSourceBuffer = st.hasSourceBuffer := by
  unfold checkPlaybackReadiness
  split_ifs <;> simp

/-- `bufferChunks` only ever touches `isBuffering` and the cursor. -/
theorem bufferChunks_frame (st : RecvState) :
    (bufferChunks st).1.expectedTotalChunks = st.expectedTotalChunks
    ∧ (bufferChunks st).1.receivingProgress = st.receivingProgress
    ∧ (bufferChunks st).1.receivedChunks = st.receivedChunks
    ∧ (bufferChunks st).1.playbackStarted = st.playbackStarted
    ∧ (bufferChunks st).1.hasSourceBuffer = st.hasSourceBuffer := by
  simp only [bufferChunks]
  split_ifs <;> simp

/-- `bufferChunks` emits sink appends only, never a readiness event. -/
theorem bufferChunks_no_ready (st : RecvState) :
    Ev.playbackReady ∉ (bufferChunks st).2 := by
  simp only [bufferChunks]
  split_ifs <;> simp

/-- On a valid chunk envelope, `handleChunk` stores the decoded payload
under its index and increments the received count. -/
theorem handleChunk_valid (st : RecvState) (msg : ChunkMessage) (i : Nat)
    (d : List Nat) (hm : msg.chunkIndex = some i) (hd : msg.data = some d)
    (hne : d ≠ []) :
    (handleChunk st msg).1.receivedChunks =
        mapSet st.receivedChunks i (base64ToArrayBuffer d)
    ∧ (handleChunk st msg).1.receivingProgress = st.receivingProgress + 1
    ∧ (handleChunk st msg).1.expectedTotalChunks =
        st.expectedTotalChunks := by
  unfold handleChunk
  rw [hm, hd]
  simp only [if_neg hne]
  refine ⟨?_, ?_, ?_⟩
  · rw [(bufferChunks_frame _).2.2.1, (checkPR_frame _).2.2.1]
  · rw [(bufferChunks_frame _).2.1, (checkPR_frame _).2.1]
  · rw [(bufferChunks_frame _).1, (checkPR_frame _).1]

/-- C2 counterexample: delivering the same chunk envelope twice increments
`receivingProgress` a second time, so the receiver state is not unchanged
beyond the first delivery. -/
theorem c2_counterexample :
    (handleChunk (handleChunk recvAfterOne chunkMsg0).1 chunkMsg0).1.receivingProgress
      ≠ (handleChunk recvAfterOne chunkMsg0).1.receivingProgress := by
  have h1 := handleChunk_valid recvAfterOne chunkMsg0 0 (btoa [7]) rfl rfl
    (by decide)
  have h2 := handleChunk_valid (handleChunk recvAfterOne chunkMsg0).1
    chunkMsg0 0 (btoa [7]) rfl rfl (by decide)
  rw [h2.2.1, h1.2.1]
  omega

/-- C2 (amended): delivering the same chunk (i, d) a second time leaves the
reconstructed file content (the `receivedChunks` map) unchanged, but
increments `receivingProgress` again: the map write is idempotent, the
received count is not. -/
theorem c2_duplicate_chunk (st : RecvState) (msg : ChunkMessage) (i : Nat)
    (d : List Nat) (hm : msg.chunkIndex = some i) (hd : msg.data = some d)
    (hne : d ≠ []) :
    (handleChunk (handleChunk st msg).1 msg).1.receivedChunks =
        (handleChunk st msg).1.receivedChunks
    ∧ (handleChunk (handleChunk st msg).1 msg).1.receivingProgress =
        (handleChunk st msg).1.receivingProgress + 1 := by
  obtain ⟨hmap1, hprog1, _⟩ := handleChunk_valid st msg i d hm hd hne
  obtain ⟨hmap2, hprog2, _⟩ :=
    handleChunk_valid (handleChunk st msg).1 msg i d hm hd hne
  exact ⟨by rw [hmap2, hmap1, mapSet_idem], hprog2⟩

/-- C2 witness: the amended statement at a concrete receiver and chunk. -/
theorem c2_duplicate_chunk_witness :
    (chunkMsg0.chunkIndex = some 0 ∧ chunkMsg0.data = some (btoa [7])
      ∧ btoa [7] ≠ [])
    ∧ ((handleChunk (handleChunk recvAfterOne chunkMsg0).1
          chunkMsg0).1.receivedChunks =
        (handleChunk recvAfterOne chunkMsg0).1.receivedChunks
      ∧ (handleChunk (handleChunk recvAfterOne chunkMsg0).1
          chunkMsg0).1.receivingProgress =
        (handleChunk recvAfterOne chunkMsg0).1.receivingProgress + 1) :=
  ⟨⟨rfl, rfl, by decide⟩,
    c2_duplicate_chunk recvAfterOne chunkMsg0 0 (btoa [7]) rfl rfl
      (by decide)⟩

/-- The collection loop gathers at most its capacity. -/
theorem collectChunks_length_le (m : List (Nat × List Nat)) :
    ∀ fuel idx, (collectChunks m idx fuel).length ≤ fuel := by
  intro fuel
  induction fuel with
  | zero => intro idx; simp [collectChunks]
  | succ n ih =>
    intro idx
    cases h : mapGet m idx with
    | none => rw [collectChunks_none m idx n h]; simp
    | some v =>
      rw [collectChunks_some m idx n v h, List.length_cons]
      exact Nat.succ_le_succ (ih (idx + 1))

/-- Every index inside the collected run is present in the map. -/
theorem collectChunks_present (m : List (Nat × List Nat)) :
    ∀ fuel idx k, k < (collectChunks m idx fuel).length →
      (mapGet m (idx + k)).isSome = true := by
  intro fuel
  induction fuel with
  | zero => intro idx k hk; simp [collectChunks] at hk
  | succ n ih =>
    intro idx k hk
    cases h : mapGet m idx with
    | none => rw [collectChunks_none m idx n h] at hk; simp at hk
    | some v =>
      rw [collectChunks_some m idx n v h, List.length_cons] at hk
      cases k with
      | zero => simp [h]
      | succ k' =>
        have hmem := ih (idx + 1) k' (by omega)
        have harr : idx + (k' + 1) = idx + 1 + k' := by omega
        rw [harr]
        exact hmem

/-- When the run stops short of its capacity, the next index is absent:
the cursor never advances past a gap. -/
theorem collectChunks_stop (m : List (Nat × List Nat)) :
    ∀ fuel idx, (collectChunks m idx fuel).length < fuel →
      mapGet m (idx + (collectChunks m idx fuel).length) = none := by
  intro fuel
  induction fuel with
  | zero => intro idx hk; simp [collectChunks] at hk
  | succ n ih =>
    intro idx hk
    cases h : mapGet m idx with
    | none =>
      rw [collectChunks_none m idx n h]
      simpa using h
    | some v =>
      rw [collectChunks_some m idx n v h, List.length_cons] at hk ⊢
      have hnext := ih (idx + 1) (by omega)
      have harr : idx + ((collectChunks m (idx + 1) n).length + 1) =
          idx + 1 + (collectChunks m (idx + 1) n).length := by omega
      rw [harr]
      exact hnext

/-- The collected run is exactly the mapped values of the consecutive
indices starting at the cursor, in index order. -/
theorem collectChunks_shape (m : List (Nat × List Nat)) :
    ∀ fuel idx, collectChunks m idx fuel =
      (List.range (collectChunks m idx fuel).length).map
        fun k => (mapGet m (idx + k)).getD [] := by
  intro fuel
  induction fuel with
  | zero => intro idx; simp [collectChunks]
  | succ n ih =>
    intro idx
    cases h : mapGet m idx with
    | none => rw [collectChunks_none m idx n h]; simp
    | some v =>
      rw [collectChunks_some m idx n v h]
      simp only [List.length_cons, List.range_succ_eq_map, List.map_cons,
        List.map_map, Nat.add_zero, h, Option.getD_some, List.cons.injEq,
        true_and]
      nth_rewrite 1 [ih (idx + 1)]
      apply List.map_congr_left
      intro k _
      simp only [Function.comp_apply]
      have harr : idx + 1 + k = idx + Nat.succ k := by omega
      rw [harr]

/-- C3: the Decode Feeder (`bufferChunks`) never advances the contiguous
cursor past a gap: when a source buffer exists and no append is in flight,
it feeds exactly the run of consecutive present indices starting at the
cursor, at most 5 of them, concatenated in index order, advances the
cursor by the run length, and when it stops short of 5 the next index is
absent from the reassembly map. -/
theorem c3_buffer_no_gap (st : RecvState) (h1 : st.hasSourceBuffer = true)
    (h2 : st.isBuffering = false) :
    (bufferChunks st).1.bufferedChunkIndex = st.bufferedChunkIndex +
        (collectChunks st.receivedChunks st.bufferedChunkIndex 5).length
    ∧ (collectChunks st.receivedChunks st.bufferedChunkIndex 5).length ≤ 5
    ∧ (∀ k, k <
        (collectChunks st.receivedChunks st.bufferedChunkIndex 5).length →
        (mapGet st.receivedChunks (st.bufferedChunkIndex + k)).isSome =
          true)
    ∧ ((collectChunks st.receivedChunks st.bufferedChunkIndex 5).length <
          5 →
        mapGet st.receivedChunks (st.bufferedChunkIndex +
          (collectChunks st.receivedChunks st.bufferedChunkIndex 5).length)
          = none)
    ∧ (bufferChunks st).2 =
        (if (collectChunks st.receivedChunks st.bufferedChunkIndex
              5).length = 0 then []
         else [Ev.appendToSink
          (((List.range (collectChunks st.receivedChunks
              st.bufferedChunkIndex 5).length).map
            fun k => (mapGet st.receivedChunks
              (st.bufferedChunkIndex + k)).getD []).flatten)]) := by
  have hg : ¬(st.hasSourceBuffer = false ∨ st.isBuffering = true) := by
    simp [h1, h2]
  refine ⟨?_, collectChunks_length_le _ _ _,
    fun k hk => collectChunks_present _ _ _ k hk,
    collectChunks_stop _ _ _, ?_⟩
  · simp only [bufferChunks, if_neg hg]
    split_ifs with hz
    · simp [hz]
    · simp
  · simp only [bufferChunks, if_neg hg]
    split_ifs with hz
    · rfl
    · rw [← collectChunks_shape]

/-- C3 witness: with exactly chunks {0, 1, 3} present and the cursor at 0,
only chunks 0 and 1 are fed and the cursor stops at the gap before 2. -/
theorem c3_buffer_no_gap_witness :
    (recvGapState.hasSourceBuffer = true ∧ recvGapState.isBuffering = false)
    ∧ (bufferChunks recvGapState).1.bufferedChunkIndex =
        recvGapState.bufferedChunkIndex +
        (collectChunks recvGapState.receivedChunks
          recvGapState.bufferedChunkIndex 5).length
    ∧ (collectChunks recvGapState.receivedChunks
        recvGapState.bufferedChunkIndex 5).length ≤ 5
    ∧ (mapGet recvGapState.receivedChunks
        (recvGapState.bufferedChunkIndex + 0)).isSome = true
    ∧ (mapGet recvGapState.receivedChunks
        (recvGapState.bufferedChunkIndex + 1)).isSome = true
    ∧ mapGet recvGapState.receivedChunks
        (recvGapState.bufferedChunkIndex +
          (collectChunks recvGapState.receivedChunks
            recvGapState.bufferedChunkIndex 5).length) = none
    ∧ (bufferChunks recvGapState).2 =
        (if (collectChunks recvGapState.receivedChunks
              recvGapState.bufferedChunkIndex 5).length = 0 then []
         else [Ev.appendToSink
          (((List.range (collectChunks recvGapState.receivedChunks
              recvGapState.bufferedChunkIndex 5).length).map
            fun k => (mapGet recvGapState.receivedChunks
              (recvGapState.bufferedChunkIndex + k)).getD
                []).flatten)]) :=
  ⟨⟨rfl, rfl⟩,
    (c3_buffer_no_gap recvGapState rfl rfl).1,
    (c3_buffer_no_gap recvGapState rfl rfl).2.1,
    (c3_buffer_no_gap recvGapState rfl rfl).2.2.1 0 (by decide),
    (c3_buffer_no_gap recvGapState rfl rfl).2.2.1 1 (by decide),
    (c3_buffer_no_gap recvGapState rfl rfl).2.2.2.1 (by decide),
    (c3_buffer_no_gap recvGapState rfl rfl).2.2.2.2⟩

/-- On a valid chunk envelope `handleChunk` is the store step followed by
the readiness check and the decode feeder, with the progress callback
first in the event order. -/
theorem handleChunk_eq (st : RecvState) (msg : ChunkMessage) (i : Nat)
    (d : List Nat) (hm : msg.chunkIndex = some i) (hd : msg.data = some d)
    (hne : d ≠ []) :
    handleChunk st msg =
      ((bufferChunks (checkPlaybackReadiness (stored st i d)).1).1,
        Ev.progressUpdate
            (((st.receivingProgress + 1 : Nat) : ℚ) /
              ((st.expectedTotalChunks : ℚ)) * 100)
          :: ((checkPlaybackReadiness (stored st i d)).2 ++
              (bufferChunks (checkPlaybackReadiness (stored st i d)).1).2)) := by
  unfold handleChunk
  rw [hm, hd]
  simp only [if_neg hne]
  rfl

/-- On an envelope missing its index or payload (or with an empty payload,
falsy in JS), `handleChunk` drops it and changes nothing. -/
theorem handleChunk_invalid (st : RecvState) (msg : ChunkMessage)
    (h : msg.chunkIndex = none ∨ msg.data = none ∨ msg.data = some []) :
    handleChunk st msg = (st, []) := by
  unfold handleChunk
  rcases h with h | h | h
  · rw [h]
  · rw [h]; cases hmi : msg.chunkIndex <;> rfl
  · rw [h]
    cases hmi : msg.chunkIndex
    · rfl
    · rfl

/-- Before metadata (`expectedTotalChunks = 0`) the readiness check returns
without evaluating the buffer ratio. -/
theorem checkPR_expected_zero (st : RecvState)
    (he : st.expectedTotalChunks = 0) :
    checkPlaybackReadiness st = (st, []) := by
  simp [checkPlaybackReadiness, he]

/-- Without a source buffer the decode feeder does nothing. -/
theorem bufferChunks_noSB (st : RecvState)
    (hb : st.hasSourceBuffer = false) :
    bufferChunks st = (st, []) := by
  simp [bufferChunks, hb]

/-- Before metadata, a chunk delivery keeps `expectedTotalChunks = 0` and
never produces a readiness notification. -/
theorem handleChunk_no_ready_of_expected_zero (st : RecvState)
    (msg : ChunkMessage) (he : st.expectedTotalChunks = 0) :
    (handleChunk st msg).1.expectedTotalChunks = 0
    ∧ Ev.playbackReady ∉ (handleChunk st msg).2 := by
  cases hmi : msg.chunkIndex with
  | none => rw [handleChunk_invalid st msg (Or.inl hmi)]; simp [he]
  | some i =>
    cases hmd : msg.data with
    | none => rw [handleChunk_invalid st msg (Or.inr (Or.inl hmd))]; simp [he]
    | some d =>
      by_cases hne : d = []
      · subst hne
        rw [handleChunk_invalid st msg (Or.inr (Or.inr hmd))]
        simp [he]
      · rw [handleChunk_eq st msg i d hmi hmd hne]
        have h1 : checkPlaybackReadiness (stored st i d) =
            (stored st i d, []) :=
          checkPR_expected_zero _ (by simp [stored, he])
        rw [h1]
        constructor
        · have := (bufferChunks_frame (stored st i d)).1
          simp only [this]
          simp [stored, he]
        · intro hcon
          simp only [List.mem_cons, List.nil_append] at hcon
          rcases hcon with hcon | hcon
          · exact Ev.noConfusion hcon
          · exact bufferChunks_no_ready _ hcon

/-- Processing any number of chunk envelopes while no metadata has been
seen never produces a readiness notification. -/
theorem processChunks_no_ready : ∀ (msgs : List ChunkMessage)
    (st : RecvState), st.expectedTotalChunks = 0 →
    Ev.playbackReady ∉ (processChunks st msgs).2 := by
  intro msgs
  induction msgs with
  | nil => intro st _; simp [processChunks]
  | cons m rest ih =>
    intro st he
    obtain ⟨he1, hnr⟩ := handleChunk_no_ready_of_expected_zero st m he
    simp only [processChunks, List.mem_append, not_or]
    exact ⟨hnr, ih _ he1⟩

/-- C10: with no metadata processed (`expectedTotalChunks = 0`),
`checkPlaybackReadiness` returns before evaluating the buffer ratio — so
the ratio, whose denominator would be zero, is never computed — it never
reports readiness, and no sequence of chunk deliveries can make the
receiver report readiness while metadata is still missing. -/
theorem c10_no_div_by_zero (st : RecvState)
    (he : st.expectedTotalChunks = 0) :
    checkPlaybackReadiness st = (st, [])
    ∧ ∀ msgs, Ev.playbackReady ∉ (processChunks st msgs).2 :=
  ⟨checkPR_expected_zero st he, fun msgs => processChunks_no_ready msgs st he⟩

/-- C10 witness: the property at the pre-metadata receiver state. -/
theorem c10_no_div_by_zero_witness :
    recvNoMetadata.expectedTotalChunks = 0
    ∧ checkPlaybackReadiness recvNoMetadata = (recvNoMetadata, [])
    ∧ Ev.playbackReady ∉
        (processChunks recvNoMetadata [chunkMsg0, chunkMsg0]).2 :=
  ⟨rfl, (c10_no_div_by_zero recvNoMetadata rfl).1,
    (c10_no_div_by_zero recvNoMetadata rfl).2 [chunkMsg0, chunkMsg0]⟩

/-- C9 counterexample: a chunk arriving before any metadata
(`expectedTotalChunks = 0`) is not dropped: the receiver state changes,
the payload is stored under its index, and the received count becomes 1. -/
theorem c9_counterexample :
    (handleChunk recvNoMetadata chunkMsg0).1 ≠ recvNoMetadata
    ∧ mapGet (handleChunk recvNoMetadata chunkMsg0).1.receivedChunks 0 =
        some [7]
    ∧ (handleChunk recvNoMetadata chunkMsg0).1.receivingProgress = 1 := by
  decide

/-- C9 (amended): a chunk received before metadata is stored, not dropped:
`handleChunk` records the decoded payload in `receivedChunks` and
increments `receivingProgress`; but the session continues without error —
no readiness is reported and nothing is fed to the decode sink (no source
buffer exists before metadata). -/
theorem c9_chunk_before_metadata (st : RecvState) (msg : ChunkMessage)
    (i : Nat) (d : List Nat) (he : st.expectedTotalChunks = 0)
    (hb : st.hasSourceBuffer = false) (hm : msg.chunkIndex = some i)
    (hd : msg.data = some d) (hne : d ≠ []) :
    (handleChunk st msg).1.receivedChunks =
        mapSet st.receivedChunks i (base64ToArrayBuffer d)
    ∧ (handleChunk st msg).1.receivingProgress = st.receivingProgress + 1
    ∧ (handleChunk st msg).1.expectedTotalChunks = 0
    ∧ (handleChunk st msg).1.playbackStarted = st.playbackStarted
    ∧ Ev.playbackReady ∉ (handleChunk st msg).2
    ∧ ∀ bs, Ev.appendToSink bs ∉ (handleChunk st msg).2 := by
  rw [handleChunk_eq st msg i d hm hd hne]
  have h1 : checkPlaybackReadiness (stored st i d) = (stored st i d, []) :=
    checkPR_expected_zero _ (by simp [stored, he])
  have h2 : bufferChunks (stored st i d) = (stored st i d, []) :=
    bufferChunks_noSB _ (by simp [stored, hb])
  rw [h1, h2]
  simp [stored, he]

/-- C9 witness: the amended statement at the concrete pre-metadata state. -/
theorem c9_chunk_before_metadata_witness :
    (recvNoMetadata.expectedTotalChunks = 0
      ∧ recvNoMetadata.hasSourceBuffer = false
      ∧ chunkMsg0.chunkIndex = some 0 ∧ chunkMsg0.data = some (btoa [7])
      ∧ btoa [7] ≠ [])
    ∧ ((handleChunk recvNoMetadata chunkMsg0).1.receivedChunks =
        mapSet recvNoMetadata.receivedChunks 0 (base64ToArrayBuffer (btoa [7]))
      ∧ (handleChunk recvNoMetadata chunkMsg0).1.receivingProgress =
          recvNoMetadata.receivingProgress + 1
      ∧ (handleChunk recvNoMetadata chunkMsg0).1.expectedTotalChunks = 0
      ∧ (handleChunk recvNoMetadata chunkMsg0).1.playbackStarted =
          recvNoMetadata.playbackStarted
      ∧ Ev.playbackReady ∉ (handleChunk recvNoMetadata chunkMsg0).2
      ∧ Ev.appendToSink [7] ∉ (handleChunk recvNoMetadata chunkMsg0).2) :=
  ⟨⟨rfl, rfl, rfl, rfl, by decide⟩,
    (c9_chunk_before_metadata recvNoMetadata chunkMsg0 0 (btoa [7]) rfl rfl
      rfl rfl (by decide)).1,
    (c9_chunk_before_metadata recvNoMetadata chunkMsg0 0 (btoa [7]) rfl rfl
      rfl rfl (by decide)).2.1,
    (c9_chunk_before_metadata recvNoMetadata chunkMsg0 0 (btoa [7]) rfl rfl
      rfl rfl (by decide)).2.2.1,
    (c9_chunk_before_metadata recvNoMetadata chunkMsg0 0 (btoa [7]) rfl rfl
      rfl rfl (by decide)).2.2.2.1,
    (c9_chunk_before_metadata recvNoMetadata chunkMsg0 0 (btoa [7]) rfl rfl
      rfl rfl (by decide)).2.2.2.2.1,
    (c9_chunk_before_metadata recvNoMetadata chunkMsg0 0 (btoa [7]) rfl rfl
      rfl rfl (by decide)).2.2.2.2.2 [7]⟩

/-- C6: a master ignores every sync sample: `handleSync` returns the
session state unchanged in every field. -/
theorem c6_master_ignores_sync (st : ServiceState) (msg : ChunkMessage)
    (now : ℚ) (hm : st.isMaster = true) :
    handleSync st msg now = st := by
  simp [handleSync, hm]

/-- C6 witness: a concrete master session and sync sample. -/
theorem c6_master_ignores_sync_witness :
    masterState.isMaster = true
    ∧ handleSync masterState syncMsg100 1000 = masterState :=
  ⟨rfl, c6_master_ignores_sync masterState syncMsg100 1000 rfl⟩

/-- C5: a follower receiving a sync sample seeks to
`targetTime = sample.currentTime + (now - sample.timestamp) / 1000` exactly
when `|localTime - targetTime|` exceeds the 1-second tolerance, and its
paused flag is reconciled to the sample's paused flag independently of
whether a seek occurred; no other service field changes. -/
theorem c5_follower_sync (st : ServiceState) (v : VideoState)
    (sd : SyncData) (msg : ChunkMessage) (now : ℚ)
    (hm : st.isMaster = false) (hv : st.video = some v)
    (hs : msg.syncData = some sd) :
    (handleSync st msg now).video = some
      { currentTime :=
          if SEEK_TOLERANCE <
              |v.currentTime - (sd.currentTime + (now - sd.timestamp) / 1000)|
          then sd.currentTime + (now - sd.timestamp) / 1000
          else v.currentTime,
        paused := sd.paused }
    ∧ (handleSync st msg now).recv = st.recv
    ∧ (handleSync st msg now).sendSt = st.sendSt
    ∧ (handleSync st msg now).isMaster = st.isMaster := by
  rcases v with ⟨vc, vp⟩
  rcases sd with ⟨sc, sp, sts⟩
  simp only [handleSync, hm, hv, hs, Bool.false_eq_true, if_false]
  cases sp <;> cases vp <;> split_ifs <;> simp_all

/-- C5 witness: with the master at 100.0 s, a 400 ms old sample and local
time 98.0 s the drift is 2.4 s > 1 s, so the follower seeks to
`targetTime`; with local time 100.0 s the drift is 0.4 s, so it does not.
The evaluated targets: 100 + 400/1000 = 502/5 = 100.4 s. -/
theorem c5_follower_sync_witness :
    (followerAt98.isMaster = false
      ∧ followerAt98.video = some { currentTime := 98, paused := false }
      ∧ syncMsg100.syncData =
          some { currentTime := 100, paused := false, timestamp := 0 })
    ∧ (handleSync followerAt98 syncMsg100 400).video = some
        { currentTime :=
            if SEEK_TOLERANCE < |(98 : ℚ) - (100 + (400 - 0) / 1000)|
            then 100 + (400 - 0) / 1000 else 98,
          paused := false }
    ∧ (handleSync followerAt100 syncMsg100 400).video = some
        { currentTime :=
            if SEEK_TOLERANCE < |(100 : ℚ) - (100 + (400 - 0) / 1000)|
            then 100 + (400 - 0) / 1000 else 100,
          paused := false }
    ∧ (if SEEK_TOLERANCE < |(98 : ℚ) - (100 + (400 - 0) / 1000)|
        then (100 + (400 - 0) / 1000 : ℚ) else 98) = 502 / 5
    ∧ (if SEEK_TOLERANCE < |(100 : ℚ) - (100 + (400 - 0) / 1000)|
        then (100 + (400 - 0) / 1000 : ℚ) else 100) = 100 := by
  refine ⟨⟨rfl, rfl, rfl⟩,
    (c5_follower_sync followerAt98 ⟨98, false⟩ ⟨100, false, 0⟩ syncMsg100
      400 rfl rfl rfl).1,
    (c5_follower_sync followerAt100 ⟨100, false⟩ ⟨100, false, 0⟩ syncMsg100
      400 rfl rfl rfl).1, ?_, ?_⟩
  · rw [if_pos]
    · norm_num
    · rw [show |(98 : ℚ) - (100 + (400 - 0) / 1000)| = 12 / 5 by
        rw [abs_of_nonpos (by norm_num)]; norm_num]
      norm_num [SEEK_TOLERANCE]
  · rw [if_neg]
    rw [show |(100 : ℚ) - (100 + (400 - 0) / 1000)| = 2 / 5 by
      rw [abs_of_nonpos (by norm_num)]; norm_num]
    norm_num [SEEK_TOLERANCE]

/-- C8 counterexample: with a transfer already in progress but the channel
no longer open, a second `shareMovie` call is rejected with the
channel-not-ready error, not the busy (`TransferBusy`) warning: the channel
check precedes the busy check. -/
theorem c8_counterexample :
    (shareMovie ChannelState.notOpen busySend []).2 ≠ [Ev.busyWarning] := by
  decide

/-- C8 (amended): while a transfer is in progress, a second `shareMovie`
call is always rejected synchronously with no change to any sending state;
the rejection is the busy (`TransferBusy`) warning exactly when the channel
is open, and the channel-not-ready rejection otherwise (the channel check
runs first). -/
theorem c8_busy_reject (cs : ChannelState) (st : SendState)
    (file : List Nat) (h : st.isSending = true) :
    (shareMovie cs st file).1 = st
    ∧ ((shareMovie cs st file).2 = [Ev.busyWarning] ↔
        cs = ChannelState.isOpen) := by
  cases cs <;> simp [shareMovie, h]

/-- C8 witness: a busy sender on an open channel is rejected with the busy
warning and its state is untouched. -/
theorem c8_busy_reject_witness :
    busySend.isSending = true
    ∧ ((shareMovie ChannelState.isOpen busySend [5]).1 = busySend
      ∧ ((shareMovie ChannelState.isOpen busySend [5]).2 = [Ev.busyWarning] ↔
          ChannelState.isOpen = ChannelState.isOpen)) :=
  ⟨rfl, c8_busy_reject ChannelState.isOpen busySend [5] rfl⟩

/-- With the channel open for attempts below `k` and closed from attempt
`k` on, the pacing loop emits chunks up to `k - 1`, then reports the
connection-lost error once and deactivates sending. -/
theorem sendLoop_closed (k : Nat) : ∀ (fuel : Nat) (st : SendState),
    st.isSending = true → st.sendingProgress ≤ k → k < st.totalChunks →
    st.totalChunks + 1 - st.sendingProgress ≤ fuel →
    sendLoop (fun i => decide (i < k)) st fuel =
      ({ st with isSending := false, sendingProgress := k },
        ((List.range' st.sendingProgress (k - st.sendingProgress)).map
          (chunkStepEvents st)).flatten ++ [Ev.channelLostError]) := by
  intro fuel
  induction fuel with
  | zero => intro st _ h2 h3 h4; omega
  | succ n ih =>
    rintro ⟨cf, fc, sp, tc, se⟩ h1 h2 h3 h4
    simp only at h1 h2 h3 h4
    subst h1
    simp only [sendLoop]
    rw [if_neg (by simp)]
    rw [if_neg (show ¬ tc ≤ sp by omega)]
    by_cases hk : sp = k
    · subst hk
      rw [if_pos (by simp)]
      simp
    · rw [if_neg (show ¬ (decide (sp < k) = false) by
        simp only [decide_eq_false_iff_not, not_not]; omega)]
      have hrec := ih ⟨cf, fc, sp + 1, tc, true⟩ rfl
        (show sp + 1 ≤ k by omega) h3 (show tc + 1 - (sp + 1) ≤ n by omega)
      rw [hrec]
      have hfun : chunkStepEvents ⟨cf, fc, sp + 1, tc, true⟩ =
          chunkStepEvents ⟨cf, fc, sp, tc, true⟩ := by
        funext j
        rfl
      obtain ⟨m, hmeq⟩ : ∃ m, k - sp = m + 1 := ⟨k - sp - 1, by omega⟩
      rw [hmeq, show k - (sp + 1) = m by omega, hfun]
      rw [show List.range' sp (m + 1) = sp :: List.range' (sp + 1) m from
        rfl]
      simp [chunkStepEvents, chunkPayload]

/-- No pacing step's events contain the connection-lost error. -/
theorem count_lost_chunkSteps (st : SendState) (l : List Nat) :
    ((l.map (chunkStepEvents st)).flatten).count Ev.channelLostError = 0 := by
  induction l with
  | nil => simp
  | cons x xs ih =>
    simp [chunkStepEvents, List.count_cons, List.count_append, ih]

/-- C7: when the channel is open for chunk attempts 0..k-1 but no longer
open at attempt k (k < totalChunks), the pacing loop started from a fresh
transfer surfaces exactly one connection-lost error, sets sending
inactive, stops with the cursor at k, and never emits any chunk with index
at or beyond k — no retry happens. -/
theorem c7_channel_lost (st : SendState) (k : Nat)
    (h1 : st.isSending = true) (h2 : st.sendingProgress = 0)
    (h3 : k < st.totalChunks) :
    sendNextChunk (fun i => decide (i < k)) st =
      ({ st with isSending := false, sendingProgress := k },
        ((List.range' 0 k).map (chunkStepEvents st)).flatten ++
          [Ev.channelLostError])
    ∧ (sendNextChunk (fun i => decide (i < k)) st).2.count
        Ev.channelLostError = 1
    ∧ ∀ j d, Ev.chunkSent j d ∈ (sendNextChunk (fun i => decide (i < k)) st).2
        → j < k := by
  have hmain : sendNextChunk (fun i => decide (i < k)) st =
      ({ st with isSending := false, sendingProgress := k },
        ((List.range' st.sendingProgress (k - st.sendingProgress)).map
          (chunkStepEvents st)).flatten ++ [Ev.channelLostError]) :=
    sendLoop_closed k (st.totalChunks + 1 - st.sendingProgress) st h1
      (by omega) h3 le_rfl
  rw [h2, Nat.sub_zero] at hmain
  refine ⟨hmain, ?_, ?_⟩
  · rw [hmain]
    simp [List.count_append, count_lost_chunkSteps]
  · intro j d hmem
    rw [hmain] at hmem
    simp only [List.mem_append, List.mem_flatten, List.mem_map] at hmem
    rcases hmem with ⟨l', ⟨a, ha, rfl⟩, hin⟩ | hin
    · simp only [chunkStepEvents, List.mem_cons,
        List.not_mem_nil] at hin
      rcases hin with hin | hin | hin
      · injection hin with hj hd'
        subst hj
        have := List.mem_range'_1.mp ha
        omega
      · exact Ev.noConfusion hin
      · exact hin.elim
    · simp only [List.mem_singleton] at hin
      exact Ev.noConfusion hin

/-- C7 witness: a 2-chunk transfer whose channel closes at attempt 1 emits
chunk 0, then exactly one connection-lost error, and never attempts
chunk 1. -/
theorem c7_channel_lost_witness :
    (busySend.isSending = true ∧ busySend.sendingProgress = 0
      ∧ 1 < busySend.totalChunks)
    ∧ sendNextChunk (fun i => decide (i < 1)) busySend =
        ({ busySend with isSending := false, sendingProgress := 1 },
          ((List.range' 0 1).map (chunkStepEvents busySend)).flatten ++
            [Ev.channelLostError])
    ∧ (sendNextChunk (fun i => decide (i < 1)) busySend).2.count
        Ev.channelLostError = 1 :=
  ⟨⟨rfl, rfl, by decide⟩,
    (c7_channel_lost busySend 1 rfl rfl (by decide)).1,
    (c7_channel_lost busySend 1 rfl rfl (by decide)).2.1⟩

/-- `processChunks` on a cons is one `handleChunk` step followed by the
rest, with the events concatenated. -/
theorem processChunks_cons (st : RecvState) (m : ChunkMessage)
    (rest : List ChunkMessage) :
    processChunks st (m :: rest) =
      ((processChunks (handleChunk st m).1 rest).1,
        (handleChunk st m).2 ++ (processChunks (handleChunk st m).1 rest).2) :=
  rfl

/-- `handleChunk` is either a no-op on an invalid envelope, or the store
step followed by the readiness check and the decode feeder. -/
theorem handleChunk_cases (st : RecvState) (msg : ChunkMessage) :
    handleChunk st msg = (st, [])
    ∨ ∃ i d q, msg.chunkIndex = some i ∧ msg.data = some d ∧ d ≠ [] ∧
      handleChunk st msg =
        ((bufferChunks (checkPlaybackReadiness (stored st i d)).1).1,
          Ev.progressUpdate q ::
            ((checkPlaybackReadiness (stored st i d)).2 ++
              (bufferChunks (checkPlaybackReadiness (stored st i d)).1).2)) := by
  cases hmi : msg.chunkIndex with
  | none => exact Or.inl (handleChunk_invalid st msg (Or.inl hmi))
  | some i =>
    cases hmd : msg.data with
    | none => exact Or.inl (handleChunk_invalid st msg (Or.inr (Or.inl hmd)))
    | some d =>
      by_cases hne : d = []
      · exact Or.inl (handleChunk_invalid st msg (Or.inr (Or.inr
          (hne ▸ hmd))))
      · exact Or.inr ⟨i, d, _, rfl, rfl, hne,
          handleChunk_eq st msg i d hmi hmd hne⟩

/-- Once playback has started, the readiness check is a no-op. -/
theorem checkPR_started (st : RecvState) (h : st.playbackStarted = true) :
    checkPlaybackReadiness st = (st, []) := by
  simp [checkPlaybackReadiness, h]

/-- The readiness check fires exactly on crossing the buffer threshold. -/
theorem checkPR_cross (st : RecvState) (hs : st.playbackStarted = false)
    (ht : st.expectedTotalChunks ≠ 0)
    (hc : BUFFER_THRESHOLD ≤
      (st.receivingProgress : ℚ) / (st.expectedTotalChunks : ℚ)) :
    checkPlaybackReadiness st =
      ({ st with playbackStarted := true }, [Ev.playbackReady]) := by
  simp [checkPlaybackReadiness, hs, ht, hc]

/-- Below the buffer threshold the readiness check does nothing. -/
theorem checkPR_nocross (st : RecvState)
    (hc : ¬ BUFFER_THRESHOLD ≤
      (st.receivingProgress : ℚ) / (st.expectedTotalChunks : ℚ)) :
    checkPlaybackReadiness st = (st, []) := by
  simp [checkPlaybackReadiness, hc]

/-- No events, no readiness notifications. -/
theorem countReady_nil : countReady [] = 0 :=
  rfl

/-- Readiness-event counting distributes over concatenation. -/
theorem countReady_append (l1 l2 : List Ev) :
    countReady (l1 ++ l2) = countReady l1 + countReady l2 := by
  simp [countReady, List.count_append]

/-- A progress callback is not a readiness event. -/
theorem countReady_progress_cons (q : ℚ) (l : List Ev) :
    countReady (Ev.progressUpdate q :: l) = countReady l := by
  simp [countReady, List.count_cons]

/-- A readiness event counts once. -/
theorem countReady_ready_cons (l : List Ev) :
    countReady (Ev.playbackReady :: l) = countReady l + 1 := by
  simp [countReady, List.count_cons]

/-- The decode feeder produces no readiness events. -/
theorem countReady_buffer (st : RecvState) :
    countReady (bufferChunks st).2 = 0 := by
  simp only [bufferChunks]
  split_ifs <;> simp [countReady]

/-- A chunk delivery cannot decrease the received count. -/
theorem handleChunk_progress_le (st : RecvState) (msg : ChunkMessage) :
    st.receivingProgress ≤ (handleChunk st msg).1.receivingProgress := by
  rcases handleChunk_cases st msg with h | ⟨i, d, q, _, _, _, h⟩
  · rw [h]
  · rw [h]
    rw [(bufferChunks_frame _).2.1, (checkPR_frame _).2.1]
    simp [stored]

/-- A chunk delivery keeps the expected chunk total. -/
theorem handleChunk_expected (st : RecvState) (msg : ChunkMessage) :
    (handleChunk st msg).1.expectedTotalChunks = st.expectedTotalChunks := by
  rcases handleChunk_cases st msg with h | ⟨i, d, q, _, _, _, h⟩
  · rw [h]
  · rw [h]
    rw [(bufferChunks_frame _).1, (checkPR_frame _).1]
    simp [stored]

/-- Processing chunk envelopes never decreases the received count. -/
theorem processChunks_progress_le : ∀ (msgs : List ChunkMessage)
    (st : RecvState),
    st.receivingProgress ≤ (processChunks st msgs).1.receivingProgress := by
  intro msgs
  induction msgs with
  | nil => intro st; simp [processChunks]
  | cons m rest ih =>
    intro st
    rw [processChunks_cons]
    exact le_trans (handleChunk_progress_le st m) (ih (handleChunk st m).1)

/-- The readiness counter over a delivery trace: starting below the
threshold with playback not yet started, the number of readiness
notifications is 1 exactly when the final received count has crossed the
threshold ratio, else 0; a trace starting with playback already started
never notifies again. -/
theorem processChunks_ready_count : ∀ (msgs : List ChunkMessage)
    (st : RecvState), 0 < st.expectedTotalChunks →
    (st.playbackStarted = false →
      (st.receivingProgress : ℚ) / (st.expectedTotalChunks : ℚ) <
        BUFFER_THRESHOLD) →
    countReady (processChunks st msgs).2 =
      if st.playbackStarted = true then 0
      else if BUFFER_THRESHOLD ≤
          ((processChunks st msgs).1.receivingProgress : ℚ) /
            (st.expectedTotalChunks : ℚ) then 1 else 0 := by
  intro msgs
  induction msgs with
  | nil =>
    intro st ht hinv
    by_cases hs : st.playbackStarted = true
    · simp [processChunks, countReady, hs]
    · have hsf : st.playbackStarted = false := by simpa using hs
      have h0 := hinv hsf
      simp [processChunks, countReady, hsf, not_le.mpr h0]
  | cons m rest ih =>
    intro st ht hinv
    rw [processChunks_cons]
    rcases handleChunk_cases st m with h | ⟨i, d, q, hmi, hmd, hne, h⟩
    · rw [h]
      simp only [List.nil_append]
      exact ih st ht hinv
    · rw [h]
      by_cases hs : st.playbackStarted = true
      · have hC : checkPlaybackReadiness (stored st i d) =
            (stored st i d, []) := checkPR_started _ (by simp [stored, hs])
        rw [hC]
        have hsB : (bufferChunks (stored st i d)).1.playbackStarted =
            true := by
          rw [(bufferChunks_frame _).2.2.2.1]; simp [stored, hs]
        have htB : 0 < (bufferChunks
            (stored st i d)).1.expectedTotalChunks := by
          rw [(bufferChunks_frame _).1]; simp [stored]; omega
        rw [countReady_append, countReady_progress_cons, countReady_append,
          ih _ htB (fun hf => absurd hf (by simp [hsB])), if_pos hsB,
          if_pos hs]
        simp [countReady_nil, countReady_buffer]
      · have hsf : st.playbackStarted = false := by simpa using hs
        have hq : (0 : ℚ) < (st.expectedTotalChunks : ℚ) := by
          exact_mod_cast ht
        by_cases hcross : BUFFER_THRESHOLD ≤
            ((st.receivingProgress + 1 : ℕ) : ℚ) /
              (st.expectedTotalChunks : ℚ)
        · have hC : checkPlaybackReadiness (stored st i d) =
              ({ stored st i d with playbackStarted := true },
                [Ev.playbackReady]) :=
            checkPR_cross _ (by simp [stored, hsf])
              (by simp [stored]; omega) (by simpa [stored] using hcross)
          rw [hC]
          have hsB : (bufferChunks { stored st i d with
              playbackStarted := true }).1.playbackStarted = true := by
            rw [(bufferChunks_frame _).2.2.2.1]
          have htB : 0 < (bufferChunks { stored st i d with
              playbackStarted := true }).1.expectedTotalChunks := by
            rw [(bufferChunks_frame _).1]; simp [stored]; omega
          have hpB : (bufferChunks { stored st i d with
              playbackStarted := true }).1.receivingProgress =
              st.receivingProgress + 1 := by
            rw [(bufferChunks_frame _).2.1]; simp [stored]
          rw [countReady_append, countReady_progress_cons,
            countReady_append, countReady_ready_cons,
            ih _ htB (fun hf => absurd hf (by simp [hsB])), if_pos hsB,
            if_neg hs]
          have hmono := processChunks_progress_le rest
            (bufferChunks { stored st i d with
              playbackStarted := true }).1
          rw [hpB] at hmono
          have hfinal : BUFFER_THRESHOLD ≤
              (((processChunks (bufferChunks { stored st i d with
                playbackStarted := true }).1 rest).1.receivingProgress :
                  ℚ) / (st.expectedTotalChunks : ℚ)) :=
            le_trans hcross ((div_le_div_iff_of_pos_right hq).mpr
              (by exact_mod_cast hmono))
          rw [if_pos hfinal]
          simp [countReady_nil, countReady_buffer]
        · have hC : checkPlaybackReadiness (stored st i d) =
              (stored st i d, []) :=
            checkPR_nocross _ (by simpa [stored] using hcross)
          rw [hC]
          have hsB : (bufferChunks (stored st i d)).1.playbackStarted =
              false := by
            rw [(bufferChunks_frame _).2.2.2.1]; simp [stored, hsf]
          have htB : 0 < (bufferChunks
              (stored st i d)).1.expectedTotalChunks := by
            rw [(bufferChunks_frame _).1]; simp [stored]; omega
          have hpB : (bufferChunks (stored st i d)).1.receivingProgress =
              st.receivingProgress + 1 := by
            rw [(bufferChunks_frame _).2.1]; simp [stored]
          have heB : (bufferChunks (stored st i d)).1.expectedTotalChunks =
              st.expectedTotalChunks := by
            rw [(bufferChunks_frame _).1]; simp [stored]
          have hinvB : (bufferChunks (stored st i d)).1.playbackStarted =
              false →
              (((bufferChunks (stored st i d)).1.receivingProgress : ℚ) /
                ((bufferChunks
                  (stored st i d)).1.expectedTotalChunks : ℚ)) <
                BUFFER_THRESHOLD := by
            intro _
            rw [hpB, heB]
            exact lt_of_not_le (by simpa using hcross)
          rw [countReady_append, countReady_progress_cons,
            countReady_append, ih _ htB hinvB, if_neg (by simp [hsB]),
            heB, if_neg hs]
          simp [countReady_nil, countReady_buffer]

/-- C4: over any sequence of chunk deliveries in one session (playback not
yet started, no chunks yet counted, metadata announcing a positive total),
the readiness notification fires exactly once — after the prefix whose
delivery first makes `receivingProgress / expectedTotalChunks` reach
`BUFFER_THRESHOLD` — and on every prefix before that the count is 0, on
every prefix from that point on it is 1, so it never fires again. -/
theorem c4_readiness_once (st : RecvState) (msgs : List ChunkMessage)
    (h0 : st.playbackStarted = false) (h1 : st.receivingProgress = 0)
    (h2 : 0 < st.expectedTotalChunks) :
    ∀ l1 l2, msgs = l1 ++ l2 →
      countReady (processChunks st l1).2 =
        if BUFFER_THRESHOLD ≤
            ((processChunks st l1).1.receivingProgress : ℚ) /
              (st.expectedTotalChunks : ℚ) then 1 else 0 := by
  intro l1 _ _
  have hinv : st.playbackStarted = false →
      (st.receivingProgress : ℚ) / (st.expectedTotalChunks : ℚ) <
        BUFFER_THRESHOLD := by
    intro _
    rw [h1]
    simp [BUFFER_THRESHOLD]
  have hmain := processChunks_ready_count l1 st h2 hinv
  rw [hmain, if_neg (by simp [h0])]

/-- C4 witness: with 10 expected chunks, the very first delivery reaches
the 10% threshold, and the readiness count over that one-element trace
is 1. -/
theorem c4_readiness_once_witness :
    (recvAfterOne.playbackStarted = false
      ∧ recvAfterOne.receivingProgress = 0
      ∧ 0 < recvAfterOne.expectedTotalChunks)
    ∧ countReady (processChunks recvAfterOne [chunkMsg0]).2 =
        if BUFFER_THRESHOLD ≤
            ((processChunks recvAfterOne [chunkMsg0]).1.receivingProgress :
              ℚ) / (recvAfterOne.expectedTotalChunks : ℚ) then 1 else 0 :=
  ⟨⟨rfl, rfl, by decide⟩,
    c4_readiness_once recvAfterOne [chunkMsg0] rfl rfl (by decide)
      [chunkMsg0] [] rfl⟩

end MovieStreaming
